import Mathlib

/-!
# Verification development for the aero-sim lease acquisition bot

Shallow embedding of `src/getplanes.py` (the only source file of the
repository).  Pure functions of the script are translated into Lean
functions; the stateful pieces (the counter dictionary, the pickle files on
disk, the webdriver session) are made explicit as values threaded through
the functions.  The remote web application itself is an external
collaborator of the program; the few facts needed about it (the shape of the
pagination control of the results grid) are modelled from the specification
and marked as such where they occur.

Conventions:
* python `dict` / `collections.defaultdict(int)` values are association
  lists (`List (String × Nat)`), with `defaultdict` reads returning 0 for
  absent keys;
* the local disk is an association list from file names to pickled counter
  maps (the only kind of file the script reads or writes);
* `pandas` data frames extracted from a lease page are lists of rows; the
  `Hours flown` cell of a raw row is an `Option Int`, where `none` stands
  for a cell on which `astype(int)` raises (a non-numeric value);
* machine integers of the script are `Nat` / `Int`; no arithmetic in the
  script can overflow a python int, which is unbounded.
-/

/-- One row of a lease table as extracted from a rendered page
(`LeaseStrainer.get_table`), before numeric coercion.  `hours` is the
`Hours flown` cell: `none` models a non-numeric value on which
`astype(int)` raises.  `payload` stands for the remaining descriptive
columns, passed through opaquely. -/
structure RawRow where
  hours : Option Int
  payload : String
  deriving DecidableEq, Repr, Inhabited

/-- One row of the collated multi-page table produced by
`build_table_index`: tagged with its 0-based page number (`page`) and its
0-based index inside that page (`idx`), with `Hours flown` coerced to an
integer. -/
structure IndexedRow where
  page : Nat
  idx : Nat
  hours : Int
  payload : String
  deriving DecidableEq, Repr, Inhabited

/-- The error raised when the `Hours flown` column of an extracted table
fails integer coercion (`df["Hours flown"].astype(int)` raising
`ValueError`; the specification calls it `MalformedTableError`). -/
inductive MalformedTableError where
  | coercionFailed
  deriving DecidableEq, Repr

deriving instance DecidableEq for Except

/-- Arguments of one invocation of `BrowserAgent.purchase_aircraft`:
the `pagenum` argument (an `Int`, since saturation mode passes `-1`) and
the `rownum` argument. -/
structure PurchaseCall where
  pagenum : Int
  rownum : Nat
  deriving DecidableEq, Repr

/-! ## Counter store and its durable persistence

`main` keeps `airframe_count`, a `collections.defaultdict(int)` from
airframe type to acquired count.  It is loaded at startup from the file
`count.pickle` if that file exists, and dumped to the file
`filename.pickle` after every purchase (lines 305-309 and 352-358 of
`src/getplanes.py`). -/

/-- The in-memory counter dictionary (`airframe_count`). -/
abbrev CounterMap := List (String × Nat)

/-- Reading `airframe_count[k]`: `defaultdict(int)` yields 0 for a key with
no recorded purchases. -/
def countGet (m : CounterMap) (k : String) : Nat :=
  match m.lookup k with
  | some v => v
  | none => 0

/-- Writing `airframe_count[k] = v` (dict assignment: replace the existing
entry, or append a new one). -/
def countSet (m : CounterMap) (k : String) (v : Nat) : CounterMap :=
  match m with
  | [] => [(k, v)]
  | (k0, v0) :: rest => if k0 = k then (k0, v) :: rest else (k0, v0) :: countSet rest k v

/-- The local disk, as far as the script touches it: a mapping from file
name to the pickled counter map stored in that file. -/
abbrev FileStore := List (String × CounterMap)

/-- `pickle.dump` to a named file, overwriting any previous content. -/
def writeFile (fs : FileStore) (name : String) (m : CounterMap) : FileStore :=
  match fs with
  | [] => [(name, m)]
  | (n0, m0) :: rest => if n0 = name then (n0, m) :: rest else (n0, m0) :: writeFile rest name m

/-- Startup load (lines 305-309): if `count.pickle` exists, unpickle it;
otherwise start from an empty `defaultdict(int)`. -/
def loadCounts (fs : FileStore) : CounterMap :=
  match fs.lookup "count.pickle" with
  | some m => m
  | none => []

/-- The per-purchase bookkeeping of the monitor loop (lines 352-358): bump
`airframe_count[t]` by one, then dump the whole map to the file
`filename.pickle`. -/
def recordPurchase (t : String) (s : CounterMap × FileStore) : CounterMap × FileStore :=
  let m1 := countSet s.1 t (countGet s.1 t + 1)
  (m1, writeFile s.2 "filename.pickle" m1)

/-! ### Basic counter lemmas -/

theorem countGet_countSet_self (m : CounterMap) (k : String) (v : Nat) :
    countGet (countSet m k v) k = v := by
  induction m with
  | nil => simp [countSet, countGet, List.lookup]
  | cons hd tl ih =>
    obtain ⟨k0, v0⟩ := hd
    by_cases h : k0 = k
    · subst h
      simp [countSet, countGet, List.lookup]
    · simp only [countSet, if_neg h]
      have h2 : (k == k0) = false := beq_eq_false_iff_ne.mpr (fun e => h e.symm)
      simpa [countGet, List.lookup, h2] using ih

theorem countGet_recordPurchase_self (t : String) (s : CounterMap × FileStore) :
    countGet (recordPurchase t s).1 t = countGet s.1 t + 1 := by
  simp [recordPurchase, countGet_countSet_self]

/-! ## The sort used by the scheduler

Line 345 of the source is `df = df.sort_values("Hours flown")`.  With its
default arguments pandas sorts a single column through
`nargsort(values, kind="quicksort")`, i.e. `values.argsort(kind="quicksort")`,
which is numpy's indirect introsort `aquicksort` (numpy
`npysort/quicksort.c.src`): median-of-3 quicksort on an index array, falling
back to an indirect insertion sort on slices of at most `SMALL_QUICKSORT + 1
= 16` indices, and to an indirect heapsort once the depth limit
`2 * npy_get_msb(n)` is exhausted.  The functions below transcribe that
algorithm; index arrays are `Array Nat`, the compared values `Array Int`
(the coerced `Hours flown` column).  The C `for(;;)` loops become fuel
recursion; the fuel supplied by `npArgsort` is far larger than the number of
iterations any input of that size can need, so the out-of-fuel branches are
unreachable. -/

/-- Read `tosort[i]`. -/
def tGet (t : Array Nat) (i : Nat) : Nat := t.getD i 0

/-- Value compared at slot `i` of the index array, i.e. `v[tosort[i]]`. -/
def vAt (v : Array Int) (t : Array Nat) (i : Nat) : Int := v.getD (tGet t i) 0

/-- `INTP_SWAP(tosort[i], tosort[j])`. -/
def tSwap (t : Array Nat) (i j : Nat) : Array Nat :=
  let a := tGet t i
  let b := tGet t j
  (t.setD i b).setD j a

/-- The shifting `while` of the indirect insertion sort:
`while (pj > pl && LT(vp, v[*pk])) *pj-- = *pk--;`.  Returns the updated
index array together with the final `pj`. -/
def ainsertShift (v : Array Int) (vp : Int) (pl : Nat) : Nat → Nat → Array Nat → Array Nat × Nat
  | 0, pj, t => (t, pj)
  | fuel + 1, pj, t =>
    if pl < pj ∧ vp < vAt v t (pj - 1) then
      ainsertShift v vp pl fuel (pj - 1) (t.setD pj (tGet t (pj - 1)))
    else (t, pj)

/-- The outer `for (pi = pl + 1; pi <= pr; ++pi)` of the indirect insertion
sort, sorting `tosort[pl..pr]` (inclusive bounds). -/
def ainsertLoop (v : Array Int) (pl pr : Nat) : Nat → Nat → Array Nat → Array Nat
  | 0, _, t => t
  | fuel + 1, pi, t =>
    if pi ≤ pr then
      let vi := tGet t pi
      let vp := v.getD vi 0
      let s := ainsertShift v vp pl (pi + 1) pi t
      ainsertLoop v pl pr fuel (pi + 1) (s.1.setD s.2 vi)
    else t

/-- Indirect insertion sort of `tosort[pl..pr]`, as in the tail of numpy's
`aquicksort`.  The shifting `while` runs at most `pj ≤ pi` times and the
outer `for` at most `pr - pl` times, so the supplied fuel is ample. -/
def ainsertSort (v : Array Int) (t : Array Nat) (pl pr : Nat) : Array Nat :=
  ainsertLoop v pl pr (pr + 2) (pl + 1) t

/-- Heap slot read: the heapsort of numpy works on `a = tosort - 1`, so its
`a[j]` is slot `pl + j - 1` of the index array. -/
def hGet (t : Array Nat) (pl j : Nat) : Nat := tGet t (pl + j - 1)

/-- Heap slot write. -/
def hSet (t : Array Nat) (pl j : Nat) (x : Nat) : Array Nat := t.setD (pl + j - 1) x

/-- The sift-down loop common to both phases of numpy's indirect heapsort
(`aheapsort`): `tmp` is the index being placed, `i`/`j` the hole and child
positions, `n` the heap size. -/
def hSift (v : Array Int) (pl : Nat) (tmp : Nat) (n : Nat) : Nat → Nat → Nat → Array Nat → Array Nat
  | 0, i, _, t => hSet t pl i tmp
  | fuel + 1, i, j, t =>
    if j ≤ n then
      let j1 := if j < n ∧ v.getD (hGet t pl j) 0 < v.getD (hGet t pl (j + 1)) 0 then j + 1 else j
      if v.getD tmp 0 < v.getD (hGet t pl j1) 0 then
        hSift v pl tmp n fuel j1 (j1 * 2) (hSet t pl i (hGet t pl j1))
      else hSet t pl i tmp
    else hSet t pl i tmp

/-- Heap construction phase: `for (l = n >> 1; l > 0; --l)`. -/
def hBuild (v : Array Int) (pl n : Nat) : Nat → Nat → Array Nat → Array Nat
  | 0, _, t => t
  | fuel + 1, l, t =>
    if 1 ≤ l then
      hBuild v pl n fuel (l - 1) (hSift v pl (hGet t pl l) n (n + 2) l (l * 2) t)
    else t

/-- Extraction phase: `for (; n > 1;)`. -/
def hExtract (v : Array Int) (pl : Nat) : Nat → Nat → Array Nat → Array Nat
  | 0, _, t => t
  | fuel + 1, n, t =>
    if 1 < n then
      let tmp := hGet t pl n
      let t1 := hSet t pl n (hGet t pl 1)
      hExtract v pl fuel (n - 1) (hSift v pl tmp (n - 1) (n + 2) 1 2 t1)
    else t

/-- Indirect heapsort of the slice of length `n` starting at slot `pl`
(numpy `aheapsort`, reached by `aquicksort` only at the depth limit). -/
def aheapSortRange (v : Array Int) (t : Array Nat) (pl n : Nat) : Array Nat :=
  hExtract v pl (n + 2) n (hBuild v pl n (n + 2) (n / 2) t)

/-- `do ++pi; while (LT(v[*pi], vp));` of the partition loop. -/
def scanRight (v : Array Int) (t : Array Nat) (vp : Int) : Nat → Nat → Nat
  | 0, pi => pi
  | fuel + 1, pi =>
    if vAt v t (pi + 1) < vp then scanRight v t vp fuel (pi + 1) else pi + 1

/-- `do --pj; while (LT(vp, v[*pj]));` of the partition loop. -/
def scanLeft (v : Array Int) (t : Array Nat) (vp : Int) : Nat → Nat → Nat
  | 0, pj => pj
  | fuel + 1, pj =>
    if vp < vAt v t (pj - 1) then scanLeft v t vp fuel (pj - 1) else pj - 1

/-- The Hoare-style partition `for (;;)` of `aquicksort`: scan from both
ends, break when the pointers cross, otherwise swap and continue.  Returns
the updated index array and the final `pi`. -/
def partLoop (v : Array Int) (vp : Int) : Nat → Nat → Nat → Array Nat → Array Nat × Nat
  | 0, pi, _, t => (t, pi)
  | fuel + 1, pi, pj, t =>
    let pi1 := scanRight v t vp (t.size + 2) pi
    let pj1 := scanLeft v t vp (t.size + 2) pj
    if pj1 ≤ pi1 then (t, pi1)
    else partLoop v vp fuel pi1 pj1 (tSwap t pi1 pj1)

/-- Main loop of numpy's `aquicksort`: the current slice is
`tosort[pl..pr]`, `stack` holds the postponed slices, `d` the remaining
introsort depth budget (the C `depth_limit`, tested before each partition
with `depth_limit-- < 0`). -/
def aquickMain (v : Array Int) : Nat → Nat → Nat → List (Nat × Nat) → Int → Array Nat → Array Nat
  | 0, _, _, _, _, t => t
  | fuel + 1, pl, pr, stack, d, t =>
    if 15 < pr - pl then
      if d < 0 then
        let t1 := aheapSortRange v t pl (pr - pl + 1)
        match stack with
        | [] => t1
        | (spl, spr) :: rest => aquickMain v fuel spl spr rest (d - 1) t1
      else
        let pm := pl + (pr - pl) / 2
        let t1 := if vAt v t pm < vAt v t pl then tSwap t pm pl else t
        let t2 := if vAt v t1 pr < vAt v t1 pm then tSwap t1 pr pm else t1
        let t3 := if vAt v t2 pm < vAt v t2 pl then tSwap t2 pm pl else t2
        let vp := vAt v t3 pm
        let t4 := tSwap t3 pm (pr - 1)
        let s := partLoop v vp (t4.size + 2) pl (pr - 1) t4
        let pi := s.2
        let t5 := tSwap s.1 pi (pr - 1)
        if pi - pl < pr - pi then
          aquickMain v fuel pl (pi - 1) ((pi + 1, pr) :: stack) (d - 1) t5
        else
          aquickMain v fuel (pi + 1) pr ((pl, pi - 1) :: stack) (d - 1) t5
    else
      let t1 := ainsertSort v t pl pr
      match stack with
      | [] => t1
      | (spl, spr) :: rest => aquickMain v fuel spl spr rest d t1

/-- `values.argsort(kind="quicksort")`: numpy's indirect introsort, started
on the identity permutation with depth budget `2 * npy_get_msb(n)`. -/
def npArgsort (v : Array Int) : Array Nat :=
  let n := v.size
  if n ≤ 1 then Array.range n
  else aquickMain v ((n + 2) * (n + 2) + 64) 0 (n - 1) [] (2 * (Nat.log2 n : Int)) (Array.range n)

/-- `df.sort_values("Hours flown")`: permute the rows of the data frame by
the argsort of the `Hours flown` column. -/
def sortValuesHours (df : List IndexedRow) : List IndexedRow :=
  (npArgsort (df.map (fun r => r.hours)).toArray).toList.map (fun i => df.getD i default)

/-! ## The acquisition scheduler of monitor mode

Lines 336-358 of `main`:

* `while airframe_count[type] < int(row["Maximum Airframes"]):`
* `df = df[df["Hours flown"] < int(row["Maximum Hours"])]`
* `if df.shape[0] <= 0: break`
* `df = df.sort_values("Hours flown")`
* `for j, lease in df.iterrows(): driver.purchase_aircraft(j[0] + 1, j[1] + 1); airframe_count[...] += 1; pickle.dump(...)`

The inner `for` iterates over the whole sorted frame; the quota is tested
only by the enclosing `while`, i.e. once per pass.  The rows purchased in a
pass are not removed from `df`, so the next pass (if the quota is still not
met) re-purchases the same frame.  Each loop pass grows the counter by the
(positive) number of rows of the frame, so the `while` terminates; the
recursion below carries fuel `maxq + 1`, which is at least that number of
passes, hence the fuel-exhaustion branch is unreachable. -/

/-- `df[df["Hours flown"] < max_hours]` (line 340): boolean-mask filtering,
which keeps the original row order. -/
def monitorEligible (maxh : Int) (df : List IndexedRow) : List IndexedRow :=
  df.filter (fun r => r.hours < maxh)

/-- One pass of the inner `for` loop (lines 347-358): for each row of the
sorted frame, in order, call `purchase_aircraft(pagenum + 1, rownum + 1)`,
bump `airframe_count[t]` and dump the counters to disk.  Returns the emitted
purchase calls and the final counter map and disk state. -/
def purchasePass (t : String) : List IndexedRow → CounterMap → FileStore →
    List PurchaseCall × CounterMap × FileStore
  | [], m, fs => ([], m, fs)
  | r :: rest, m, fs =>
    let call : PurchaseCall := { pagenum := (r.page : Int) + 1, rownum := r.idx + 1 }
    let s := recordPurchase t (m, fs)
    let q := purchasePass t rest s.1 s.2
    (call :: q.1, q.2)

/-- The scheduler `while` loop, with explicit fuel (first `Nat` argument).
Returns the purchase calls made for this rule, in order, together with the
final counter map and disk state. -/
def schedulerGo (t : String) (maxq : Nat) (maxh : Int) :
    Nat → CounterMap → FileStore → List IndexedRow →
    List PurchaseCall × CounterMap × FileStore
  | 0, m, fs, _ => ([], m, fs)
  | fuel + 1, m, fs, df =>
    if countGet m t < maxq then
      let df1 := monitorEligible maxh df
      if df1.isEmpty then ([], m, fs)
      else
        let df2 := sortValuesHours df1
        let pass := purchasePass t df2 m fs
        let q := schedulerGo t maxq maxh fuel pass.2.1 pass.2.2 df2
        (pass.1 ++ q.1, q.2)
    else ([], m, fs)

/-- The scheduler loop for one acquisition rule, fuelled with `maxq + 1`
passes (more than the loop can ever run, since every pass makes at least one
purchase). -/
def schedulerRun (t : String) (maxq : Nat) (maxh : Int)
    (m : CounterMap) (fs : FileStore) (df : List IndexedRow) :
    List PurchaseCall × CounterMap × FileStore :=
  schedulerGo t maxq maxh (maxq + 1) m fs df

/-- The same loop, recording the rows the scheduler selects (in purchase
order) instead of the argument pairs it passes to `purchase_aircraft`.
Used to state how the emitted call arguments relate to the selected rows. -/
def selectionsGo (t : String) (maxq : Nat) (maxh : Int) :
    Nat → CounterMap → FileStore → List IndexedRow →
    List IndexedRow × CounterMap × FileStore
  | 0, m, fs, _ => ([], m, fs)
  | fuel + 1, m, fs, df =>
    if countGet m t < maxq then
      let df1 := monitorEligible maxh df
      if df1.isEmpty then ([], m, fs)
      else
        let df2 := sortValuesHours df1
        let pass := purchasePass t df2 m fs
        let q := selectionsGo t maxq maxh fuel pass.2.1 pass.2.2 df2
        (df2 ++ q.1, q.2)
    else ([], m, fs)

/-- Row-selection view of `schedulerRun`. -/
def selectionsRun (t : String) (maxq : Nat) (maxh : Int)
    (m : CounterMap) (fs : FileStore) (df : List IndexedRow) :
    List IndexedRow × CounterMap × FileStore :=
  selectionsGo t maxq maxh (maxq + 1) m fs df

/-! ## `build_table_index` (lines 288-300)

`newindex = chain(repeat(i, len(x)) for i, x in enumerate(dfs))` is the
0-based page number of every row; `pd.concat(dfs)` keeps each frame's own
`RangeIndex`, so after `set_index(["pagenum", df.index])` every row is keyed
by `(page_number, row_index_within_page)`.  Finally
`df["Hours flown"].astype(int)` raises `ValueError` on a non-numeric cell,
which we surface as `Except.error MalformedTableError.coercionFailed`. -/

/-- Integer coercion of one tagged row: the page tag, the per-page row
index, and the raw row whose `Hours flown` cell must be numeric. -/
def coerceRow (x : Nat × Nat × RawRow) : Except MalformedTableError IndexedRow :=
  match x.2.2.hours with
  | some h => .ok { page := x.1, idx := x.2.1, hours := h, payload := x.2.2.payload }
  | none => .error .coercionFailed

/-- Elementwise integer coercion of the whole tagged column
(`df["Hours flown"].astype(int)` of line 299): the first non-numeric cell
raises and discards the whole result. -/
def coerceAll : List (Nat × Nat × RawRow) → Except MalformedTableError (List IndexedRow)
  | [] => .ok []
  | x :: xs =>
    match coerceRow x, coerceAll xs with
    | .ok r, .ok rs => .ok (r :: rs)
    | .error e, _ => .error e
    | .ok _, .error e => .error e

/-- `build_table_index`: collate the list of per-page tables into one table
keyed by `(pagenum, row index)` and coerce the `Hours flown` column. -/
def build_table_index (dfs : List (List RawRow)) : Except MalformedTableError (List IndexedRow) :=
  let newindex := (dfs.enum.map (fun p => List.replicate p.2.length p.1)).flatten
  let rownums := (dfs.map (fun x => List.range x.length)).flatten
  let rows := dfs.flatten
  coerceAll (newindex.zip (rownums.zip rows))

/-- Specification-side tagging of one list of pages, page by page: each page
is tagged with its page number and per-page row indices and coerced, and the
results are concatenated in page order. -/
def specTagPages : List (Nat × List RawRow) → Except MalformedTableError (List IndexedRow)
  | [] => .ok []
  | p :: ps =>
    match coerceAll (p.2.enum.map (fun q => (p.1, q.1, q.2))), specTagPages ps with
    | .ok rs, .ok rest => .ok (rs ++ rest)
    | .error e, _ => .error e
    | .ok _, .error e => .error e

/-- Specification-side description of the collated table (§4.3 of the
spec): concatenate the page tables in order, giving each row its 0-based
page number and per-page row index, with the same per-row coercion.  Stated
separately from `build_table_index` (which follows the source's
`chain`/`repeat`/`concat` construction) so the two can be compared. -/
def specTaggedTable (dfs : List (List RawRow)) : Except MalformedTableError (List IndexedRow) :=
  specTagPages dfs.enum

/-! ## The multi-page collector (`BrowserAgent.get_leases`, lines 161-207)

`get_leases` first looks the requested airframe up among the labels of the
filter drop-down and returns `None` when it is absent, touching nothing.
Otherwise it selects the option, clicks the filter button, extracts the
table of the first result page, and then clicks through the pagination
links: the link list is re-read from the freshly rendered page before each
click, but its length is taken once, from page one.

The remote application is an external collaborator; what its pagination
control shows is modelled from the spec (§4.1: the control is the final row
of the grid, one link per *other* page, no links when there is a single
page; §8 fixes this reading through the `[3,3,1] → 7 rows` pagination
property).  A UI state is therefore just the list of result pages (each a
list of raw rows) plus the 0-based index of the currently rendered page. -/

/-- Modelled from the spec: the link targets offered by the pagination
control while page `cur` (0-based) of `n` result pages is rendered — one
link per page other than the current one, in page order, and no links at
all when `n = 1`. -/
def navLinks (n cur : Nat) : List Nat :=
  (List.range n).filter (fun p => p ≠ cur)

/-- One iteration of the `for idx in range(len(pages))` loop of
`get_leases`: re-derive the navigation bar from the current page, click its
`idx`-th link (moving the UI to that page) and append the extracted table.
The state is `(current page, tables collected so far)`. -/
def collectClick (pages : List (List RawRow)) (n : Nat)
    (st : Nat × List (List RawRow)) (idx : Nat) : Nat × List (List RawRow) :=
  let links := navLinks n st.1
  let target := links.getD idx 0
  (target, st.2 ++ [pages.getD target []])

/-- The pagination sweep of `get_leases`: extract page one, read the number
of links once, then click through them, re-deriving the link list each time.
Returns the per-page tables in the order they were extracted. -/
def collectTables (pages : List (List RawRow)) : List (List RawRow) :=
  match pages with
  | [] => []
  | first :: _ =>
    let n := pages.length
    let numLinks := (navLinks n 0).length
    ((List.range numLinks).foldl (collectClick pages n) (0, [first])).2

/-- A UI action performed by the filter phase of `get_leases` /
`get_lease_page`. -/
inductive UIMutation where
  | selectOption (value : String)
  | clickApplyFilter
  deriving DecidableEq, Repr

/-- The dictionary comprehension
`{x.text: x.get_attribute("value") for x in selection_list.options}`:
on duplicate labels the last option wins, as for a python dict. -/
def optionValue (opts : List (String × String)) (label : String) : Option String :=
  opts.reverse.lookup label

/-- `BrowserAgent.get_leases` (lines 161-207): the drop-down options are the
`(label, value)` pairs currently offered; `pages` are the result pages the
remote application would serve for this filter.  Returns the extracted
per-page tables (or `none` when the airframe is not among the option
labels) together with the UI mutations performed. -/
def get_leases (opts : List (String × String)) (airframe : String)
    (pages : List (List RawRow)) : Option (List (List RawRow)) × List UIMutation :=
  if airframe ∈ opts.map Prod.fst then
    (some (collectTables pages),
      [UIMutation.selectOption ((optionValue opts airframe).getD ""), UIMutation.clickApplyFilter])
  else (none, [])

/-- `BrowserAgent.get_lease_page` (lines 133-157): identical filter phase,
but only the first result page is extracted. -/
def get_lease_page (opts : List (String × String)) (airframe : String)
    (pages : List (List RawRow)) : Option (List RawRow) × List UIMutation :=
  if airframe ∈ opts.map Prod.fst then
    (some (pages.getD 0 []),
      [UIMutation.selectOption ((optionValue opts airframe).getD ""), UIMutation.clickApplyFilter])
  else (none, [])

/-! ## The monitor-mode supervisor (lines 311-363)

The whole inner machinery of `main` runs inside one `try:` whose
`except Exception` (lines 361-363) logs the error, `continue`s the
`while True`, and thereby constructs a *new* `BrowserAgent` — the crashed
session is discarded wholesale.  In particular a `ValueError` raised by
`build_table_index` (non-numeric `Hours flown`) is not handled anywhere
closer: it aborts the pass and costs the session. -/

/-- An acquisition rule row of the configuration spreadsheet. -/
structure AcquisitionRule where
  resourceType : String
  maxQuantity : Nat
  maxHours : Int
  deriving DecidableEq, Repr

/-- Outcome of processing one rule row inside the monitor loop. -/
inductive MonitorOutcome where
  /-- The rule was processed; the loop moves on to the next rule with the
  same session. -/
  | completed (calls : List PurchaseCall) (m : CounterMap) (fs : FileStore)
  /-- An exception escaped to the `while True` handler: the session is
  discarded and a fresh `BrowserAgent` is constructed and authenticated on
  the next iteration. -/
  | sessionRestart (m : CounterMap) (fs : FileStore)
  deriving DecidableEq, Repr

/-- Whether the outcome leaves the current session alive. -/
def sessionSurvives : MonitorOutcome → Bool
  | .completed _ _ _ => true
  | .sessionRestart _ _ => false

/-- The body of `for i, row in desired_leases.iterrows()` for one rule
(lines 328-358), with the exception routing of the enclosing
`try/except` (lines 311-363): `leases` is what `get_leases` returned
(`none` when the airframe was absent from the filter options, whereupon the
row is skipped); a coercion failure in `build_table_index` escapes to the
top-level handler. -/
def monitorRuleStep (m : CounterMap) (fs : FileStore) (rule : AcquisitionRule)
    (leases : Option (List (List RawRow))) : MonitorOutcome :=
  match leases with
  | none => .completed [] m fs
  | some tables =>
    match build_table_index tables with
    | .error _ => .sessionRestart m fs
    | .ok df =>
      let r := schedulerRun rule.resourceType rule.maxQuantity rule.maxHours m fs df
      .completed r.1 r.2.1 r.2.2

/-! ## Saturation mode (`launch_agent`, lines 366-391)

One worker per airframe type.  `purchases = 0` is initialised once, before
the outer `while`.  The outer `try` covers `BrowserAgent()` and
`login_workflow()`; a failure there is caught at line 389 and the outer
loop constructs a fresh session, keeping `purchases`.  The inner `try`
(lines 375-388) swallows every error of a pass and continues the inner
loop with the same session.  A pass fetches the first lease page; if the
result is not a data frame (`None`: unknown airframe) the pass is skipped;
otherwise `purchase_aircraft(-1, 1)` is attempted — note the code tests
only `type(tables) == pd.DataFrame`, not emptiness — and `purchases` is
incremented when the purchase did not raise. -/

/-- What `get_lease_page` produced for a pass: `absent` for `None` (the
airframe is not in the drop-down), `table rows` for a data frame, possibly
with zero rows. -/
inductive LeasePageResult where
  | absent
  | table (rows : List RawRow)
  deriving DecidableEq, Repr

/-- The environment's behaviour during one iteration of the inner loop of
`launch_agent`. -/
inductive InnerEvent where
  /-- `goto_leases()` or `get_lease_page()` raised; the inner `except`
  continues the loop. -/
  | navError
  /-- `get_lease_page` returned `r`; if a purchase is attempted,
  `purchaseOk` tells whether `purchase_aircraft(-1, 1)` completed without
  raising. -/
  | leases (r : LeasePageResult) (purchaseOk : Bool)
  deriving DecidableEq, Repr

/-- The purchase calls a single inner-loop pass issues (lines 376-382):
exactly one call, `purchase_aircraft(-1, 1)`, whenever the fetched result
is a data frame — empty or not — and none otherwise. -/
def passCalls : InnerEvent → List PurchaseCall
  | .navError => []
  | .leases .absent _ => []
  | .leases (.table _) _ => [{ pagenum := -1, rownum := 1 }]

/-- The purchase counter after one inner-loop pass. -/
def passCount (e : InnerEvent) (p : Nat) : Nat :=
  match e with
  | .navError => p
  | .leases .absent _ => p
  | .leases (.table _) ok => if ok then p + 1 else p

/-- The inner `while purchases < max_airframes` loop, driven by a list of
environment events (the list ending means we stop observing the still
running loop). Returns the final purchase count. -/
def runInner (maxAir : Nat) : Nat → List InnerEvent → Nat
  | p, [] => p
  | p, e :: es => if p < maxAir then runInner maxAir (passCount e p) es else p

/-- The purchase calls issued while `runInner` processes `es`. -/
def runInnerCalls (maxAir : Nat) : Nat → List InnerEvent → List PurchaseCall
  | _, [] => []
  | p, e :: es =>
    if p < maxAir then passCalls e ++ runInnerCalls maxAir (passCount e p) es else []

/-- The environment's behaviour during one iteration of the outer loop of
`launch_agent`. -/
inductive OuterEvent where
  /-- `BrowserAgent()` or `login_workflow()` raised: the session (if any)
  is discarded and the outer loop retries with a fresh one. -/
  | loginFail
  /-- A session was constructed and authenticated; it then serves inner
  passes. -/
  | session (inner : List InnerEvent)
  deriving DecidableEq, Repr

/-- The outer `while purchases < max_airframes` loop of `launch_agent`. -/
def runOuter (maxAir : Nat) : Nat → List OuterEvent → Nat
  | p, [] => p
  | p, e :: es =>
    if p < maxAir then
      match e with
      | .loginFail => runOuter maxAir p es
      | .session inner => runOuter maxAir (runInner maxAir p inner) es
    else p

/-- `launch_agent(aircraft_type, max_airframes)`: the worker's purchase
count starts at zero, once, before any session exists. -/
def launch_agent (maxAir : Nat) (events : List OuterEvent) : Nat :=
  runOuter maxAir 0 events

/-! ## Supporting lemmas: the sort permutes, pass bookkeeping -/

theorem tSwap_size (t : Array Nat) (i j : Nat) : (tSwap t i j).size = t.size := by
  simp [tSwap, Array.size_setD]

theorem ainsertShift_size (v : Array Int) (vp : Int) (pl : Nat) :
    ∀ (fuel pj : Nat) (t : Array Nat), (ainsertShift v vp pl fuel pj t).1.size = t.size := by
  intro fuel
  induction fuel with
  | zero => intro pj t; simp [ainsertShift]
  | succ n ih =>
    intro pj t
    simp only [ainsertShift]
    split
    · rw [ih]; simp [Array.size_setD]
    · rfl

theorem ainsertLoop_size (v : Array Int) (pl pr : Nat) :
    ∀ (fuel pi : Nat) (t : Array Nat), (ainsertLoop v pl pr fuel pi t).size = t.size := by
  intro fuel
  induction fuel with
  | zero => intro pi t; simp [ainsertLoop]
  | succ n ih =>
    intro pi t
    simp only [ainsertLoop]
    split
    · rw [ih]; simp [Array.size_setD, ainsertShift_size]
    · rfl

theorem ainsertSort_size (v : Array Int) (t : Array Nat) (pl pr : Nat) :
    (ainsertSort v t pl pr).size = t.size := by
  simp [ainsertSort, ainsertLoop_size]

theorem hSift_size (v : Array Int) (pl tmp n : Nat) :
    ∀ (fuel i j : Nat) (t : Array Nat), (hSift v pl tmp n fuel i j t).size = t.size := by
  intro fuel
  induction fuel with
  | zero => intro i j t; simp [hSift, hSet, Array.size_setD]
  | succ k ih =>
    intro i j t
    simp only [hSift]
    repeat' split
    all_goals simp [ih, hSet, Array.size_setD]

theorem hBuild_size (v : Array Int) (pl n : Nat) :
    ∀ (fuel l : Nat) (t : Array Nat), (hBuild v pl n fuel l t).size = t.size := by
  intro fuel
  induction fuel with
  | zero => intro l t; simp [hBuild]
  | succ k ih =>
    intro l t
    simp only [hBuild]
    split
    · rw [ih]; simp [hSift_size]
    · rfl

theorem hExtract_size (v : Array Int) (pl : Nat) :
    ∀ (fuel n : Nat) (t : Array Nat), (hExtract v pl fuel n t).size = t.size := by
  intro fuel
  induction fuel with
  | zero => intro n t; simp [hExtract]
  | succ k ih =>
    intro n t
    simp only [hExtract]
    split
    · rw [ih]; simp [hSift_size, hSet, Array.size_setD]
    · rfl

theorem aheapSortRange_size (v : Array Int) (t : Array Nat) (pl n : Nat) :
    (aheapSortRange v t pl n).size = t.size := by
  simp [aheapSortRange, hExtract_size, hBuild_size]

theorem partLoop_size (v : Array Int) (vp : Int) :
    ∀ (fuel pi pj : Nat) (t : Array Nat), (partLoop v vp fuel pi pj t).1.size = t.size := by
  intro fuel
  induction fuel with
  | zero => intro pi pj t; simp [partLoop]
  | succ k ih =>
    intro pi pj t
    simp only [partLoop]
    split
    · rfl
    · rw [ih]; simp [tSwap_size]

theorem aquickMain_size (v : Array Int) :
    ∀ (fuel pl pr : Nat) (stack : List (Nat × Nat)) (d : Int) (t : Array Nat),
      (aquickMain v fuel pl pr stack d t).size = t.size := by
  intro fuel
  induction fuel with
  | zero => intro pl pr stack d t; simp [aquickMain]
  | succ k ih =>
    intro pl pr stack d t
    simp only [aquickMain]
    repeat' split
    all_goals
      simp [ih, aheapSortRange_size, ainsertSort_size, tSwap_size, partLoop_size,
        Array.size_setD]

theorem npArgsort_size (v : Array Int) : (npArgsort v).size = v.size := by
  by_cases h : v.size ≤ 1
  · simp [npArgsort, h, Array.size_range]
  · simp [npArgsort, h, aquickMain_size, Array.size_range]

theorem sortValuesHours_length (df : List IndexedRow) :
    (sortValuesHours df).length = df.length := by
  simp [sortValuesHours, Array.length_toList, npArgsort_size, Array.size_toArray]

/-- The calls of one purchase pass are exactly `(page + 1, idx + 1)` of its
rows, in order. -/
theorem purchasePass_calls (t : String) :
    ∀ (l : List IndexedRow) (m : CounterMap) (fs : FileStore),
      (purchasePass t l m fs).1 =
        l.map (fun r => ({ pagenum := (r.page : Int) + 1, rownum := r.idx + 1 } : PurchaseCall)) := by
  intro l
  induction l with
  | nil => intro m fs; simp [purchasePass]
  | cons r rest ih => intro m fs; simp [purchasePass, ih]

theorem purchasePass_calls_length (t : String) (l : List IndexedRow)
    (m : CounterMap) (fs : FileStore) :
    (purchasePass t l m fs).1.length = l.length := by
  simp [purchasePass_calls]

/-! ### The pagination sweep visits each page exactly once, in order -/

theorem navLinks_eq (n j : Nat) (h : j < n) :
    navLinks n j = List.range j ++ (List.range (n - (j + 1))).map (fun x => (j + 1) + x) := by
  have hn : n = (j + 1) + (n - (j + 1)) := by omega
  conv_lhs => rw [navLinks, hn, List.range_add, List.filter_append]
  congr 1
  · rw [List.range_succ, List.filter_append]
    have h1 : (List.range j).filter (fun p => decide (p ≠ j)) = List.range j := by
      rw [List.filter_eq_self]
      intro a ha
      simp only [List.mem_range] at ha
      simp only [decide_eq_true_eq]
      omega
    have h2 : ([j].filter (fun p => decide (p ≠ j))) = [] := by simp
    rw [h1, h2, List.append_nil]
  · rw [List.filter_eq_self]
    intro a ha
    simp only [List.mem_map, List.mem_range] at ha
    obtain ⟨x, _, rfl⟩ := ha
    simp only [decide_eq_true_eq]
    omega

theorem navLinks_getD (n j : Nat) (h : j + 1 < n) : (navLinks n j).getD j 0 = j + 1 := by
  rw [navLinks_eq n j (by omega)]
  rw [List.getD_append_right _ _ _ _ (by simp)]
  simp only [List.length_range, Nat.sub_self]
  have hm : n - (j + 1) = (n - (j + 1) - 1) + 1 := by omega
  rw [hm, List.range_succ_eq_map]
  simp

theorem navLinks_zero_length (m : Nat) : (navLinks (m + 1) 0).length = m := by
  have he := navLinks_eq (m + 1) 0 (by omega)
  simp [he]

theorem collectClick_inv (pages : List (List RawRow)) :
    ∀ k, k + 1 ≤ pages.length →
      (List.range k).foldl (collectClick pages pages.length) (0, pages.take 1) =
        (k, pages.take (k + 1)) := by
  intro k
  induction k with
  | zero => intro _; rfl
  | succ k ih =>
    intro h
    rw [List.range_succ, List.foldl_concat, ih (by omega)]
    have ht : (navLinks pages.length k).getD k 0 = k + 1 := navLinks_getD _ _ (by omega)
    have hlt : k + 1 < pages.length := by omega
    have h2 : List.take (k + 1 + 1) pages = List.take (k + 1) pages ++ pages[k + 1]?.toList :=
      List.take_succ
    simp only [collectClick, ht, List.getD_eq_getElem?_getD, List.getElem?_eq_getElem hlt]
    rw [h2, List.getElem?_eq_getElem hlt]
    simp

/-- The multi-page collector extracts each result page exactly once, in
page order: clicking through the freshly re-derived pagination links visits
pages `1, 2, …, n-1` in turn. -/
theorem collectTables_eq (pages : List (List RawRow)) : collectTables pages = pages := by
  match pages with
  | [] => rfl
  | first :: rest =>
    show ((List.range ((navLinks (first :: rest).length 0).length)).foldl
      (collectClick (first :: rest) (first :: rest).length) (0, [first])).2 = first :: rest
    have hlen : (first :: rest).length = rest.length + 1 := by simp
    have hnum : (navLinks (first :: rest).length 0).length = rest.length := by
      rw [hlen]; exact navLinks_zero_length rest.length
    have hinit : ([first] : List (List RawRow)) = (first :: rest).take 1 := by simp
    rw [hnum, hinit, collectClick_inv (first :: rest) rest.length (by simp)]
    simp [List.take_of_length_le]

/-! ### `build_table_index` agrees with the spec-side page tagging -/

theorem coerceAll_append (a b : List (Nat × Nat × RawRow)) :
    coerceAll (a ++ b) =
      match coerceAll a, coerceAll b with
      | .ok r, .ok s => .ok (r ++ s)
      | .error e, _ => .error e
      | .ok _, .error e => .error e := by
  induction a with
  | nil =>
    simp only [List.nil_append]
    cases h : coerceAll b <;> simp [coerceAll]
  | cons x xs ih =>
    simp only [List.cons_append, coerceAll, List.append_eq]
    rw [ih]
    cases coerceRow x <;> cases coerceAll xs <;> cases coerceAll b <;> simp

theorem replicate_zip {α β : Type} (i : α) :
    ∀ (l : List β), (List.replicate l.length i).zip l = l.map (fun x => (i, x)) := by
  intro l
  induction l with
  | nil => rfl
  | cons x xs ih => simp [List.replicate, ih]

theorem page_zip (i : Nat) (p : List RawRow) :
    (List.replicate p.length i).zip ((List.range p.length).zip p) =
      p.enum.map (fun q => (i, q.1, q.2)) := by
  have hl : ((List.range p.length).zip p).length = p.length := by simp
  calc (List.replicate p.length i).zip ((List.range p.length).zip p)
      = (List.replicate ((List.range p.length).zip p).length i).zip
          ((List.range p.length).zip p) := by rw [hl]
    _ = ((List.range p.length).zip p).map (fun x => (i, x)) := replicate_zip i _
    _ = p.enum.map (fun q => (i, q.1, q.2)) := by rw [List.enum_eq_zip_range]

theorem tagged_zip : ∀ (k : Nat) (dfs : List (List RawRow)),
    (((List.enumFrom k dfs).map (fun p => List.replicate p.2.length p.1)).flatten).zip
      (((dfs.map (fun x => List.range x.length)).flatten).zip dfs.flatten)
    = ((List.enumFrom k dfs).map (fun p => p.2.enum.map (fun q => (p.1, q.1, q.2)))).flatten := by
  intro k dfs
  induction dfs generalizing k with
  | nil => rfl
  | cons d ds ih =>
    simp only [List.enumFrom_cons, List.map_cons, List.flatten_cons]
    rw [List.zip_append (by simp), List.zip_append (by simp), page_zip, ih]

theorem coerceAll_flatten : ∀ (ps : List (Nat × List RawRow)),
    coerceAll ((ps.map (fun p => p.2.enum.map (fun q => (p.1, q.1, q.2)))).flatten) =
      specTagPages ps := by
  intro ps
  induction ps with
  | nil => rfl
  | cons p rest ih =>
    simp only [List.map_cons, List.flatten_cons]
    rw [coerceAll_append, ih]
    rfl

/-- The collated, coerced table of `build_table_index` is exactly the
page-by-page tagging described by the spec. -/
theorem build_table_index_eq_spec (dfs : List (List RawRow)) :
    build_table_index dfs = specTaggedTable dfs := by
  show coerceAll (((dfs.enum.map (fun p => List.replicate p.2.length p.1)).flatten).zip
      (((dfs.map (fun x => List.range x.length)).flatten).zip dfs.flatten)) = specTaggedTable dfs
  rw [show dfs.enum = List.enumFrom 0 dfs from rfl, tagged_zip 0 dfs]
  exact coerceAll_flatten _

/-! ### Unfolding and stop lemmas for the loops -/

/-- One unfolding of the scheduler loop: `schedulerRun` always has fuel of
the shape `maxq + 1`, so its first iteration reduces definitionally. -/
theorem schedulerRun_unfold (t : String) (maxq : Nat) (maxh : Int)
    (m : CounterMap) (fs : FileStore) (df : List IndexedRow) :
    schedulerRun t maxq maxh m fs df =
      if countGet m t < maxq then
        if (monitorEligible maxh df).isEmpty then ([], m, fs)
        else
          let df2 := sortValuesHours (monitorEligible maxh df)
          let pass := purchasePass t df2 m fs
          let q := schedulerGo t maxq maxh maxq pass.2.1 pass.2.2 df2
          (pass.1 ++ q.1, q.2)
      else ([], m, fs) := rfl

theorem runInner_stopped (maxAir p : Nat) (evs : List InnerEvent) (h : maxAir ≤ p) :
    runInner maxAir p evs = p := by
  cases evs with
  | nil => rfl
  | cons e es => simp [runInner, Nat.not_lt.mpr h]

theorem runOuter_stopped (maxAir p : Nat) (es : List OuterEvent) (h : maxAir ≤ p) :
    runOuter maxAir p es = p := by
  cases es with
  | nil => rfl
  | cons e es => simp [runOuter, Nat.not_lt.mpr h]

/-- The first iteration of a scheduler run below quota with eligible rows:
the calls of the first pass, followed by the calls of the rest of the
loop. -/
theorem schedulerRun_calls_cons (t : String) (maxq : Nat) (maxh : Int)
    (m : CounterMap) (fs : FileStore) (df : List IndexedRow)
    (hq : countGet m t < maxq) (he : (monitorEligible maxh df).isEmpty = false) :
    (schedulerRun t maxq maxh m fs df).1 =
      (purchasePass t (sortValuesHours (monitorEligible maxh df)) m fs).1 ++
        (schedulerGo t maxq maxh maxq
          (purchasePass t (sortValuesHours (monitorEligible maxh df)) m fs).2.1
          (purchasePass t (sortValuesHours (monitorEligible maxh df)) m fs).2.2
          (sortValuesHours (monitorEligible maxh df))).1 := by
  rw [schedulerRun_unfold]
  simp [hq, he]

theorem passCount_ge (e : InnerEvent) (p : Nat) : p ≤ passCount e p := by
  cases e with
  | navError => exact Nat.le_refl p
  | leases r ok =>
    cases r with
    | absent => exact Nat.le_refl p
    | table rows =>
      cases ok with
      | true => exact Nat.le_succ p
      | false => exact Nat.le_refl p

theorem passCount_le (e : InnerEvent) (p : Nat) : passCount e p ≤ p + 1 := by
  cases e with
  | navError => exact Nat.le_succ p
  | leases r ok =>
    cases r with
    | absent => exact Nat.le_succ p
    | table rows =>
      cases ok with
      | true => exact Nat.le_refl (p + 1)
      | false => exact Nat.le_succ p

theorem runInner_mono (maxAir : Nat) :
    ∀ (evs : List InnerEvent) (p : Nat), p ≤ runInner maxAir p evs := by
  intro evs
  induction evs with
  | nil => intro p; exact Nat.le_refl p
  | cons e es ih =>
    intro p
    by_cases hp : p < maxAir
    · simp only [runInner, hp, if_true]
      exact Nat.le_trans (passCount_ge e p) (ih (passCount e p))
    · simp [runInner, hp]

theorem runInner_le_max (maxAir : Nat) :
    ∀ (evs : List InnerEvent) (p : Nat), p ≤ maxAir → runInner maxAir p evs ≤ maxAir := by
  intro evs
  induction evs with
  | nil => intro p h; exact h
  | cons e es ih =>
    intro p h
    by_cases hp : p < maxAir
    · simp only [runInner, hp, if_true]
      exact ih _ (Nat.le_trans (passCount_le e p) hp)
    · simp [runInner, hp, h]

theorem runOuter_mono (maxAir : Nat) :
    ∀ (es : List OuterEvent) (p : Nat), p ≤ runOuter maxAir p es := by
  intro es
  induction es with
  | nil => intro p; exact Nat.le_refl p
  | cons e es ih =>
    intro p
    by_cases hp : p < maxAir
    · cases e with
      | loginFail => simpa [runOuter, hp] using ih p
      | session inner =>
        simp only [runOuter, hp, if_true]
        exact Nat.le_trans (runInner_mono maxAir inner p) (ih _)
    · simp [runOuter, hp]

/-- Fusion of the two views of the scheduler loop: the emitted purchase
calls are exactly the selected rows under `(page + 1, idx + 1)`. -/
theorem schedulerGo_eq_selections (t : String) (maxq : Nat) (maxh : Int) :
    ∀ (fuel : Nat) (m : CounterMap) (fs : FileStore) (df : List IndexedRow),
      (schedulerGo t maxq maxh fuel m fs df).1 =
        ((selectionsGo t maxq maxh fuel m fs df).1).map
          (fun r => ({ pagenum := (r.page : Int) + 1, rownum := r.idx + 1 } : PurchaseCall)) := by
  intro fuel
  induction fuel with
  | zero => intro m fs df; simp [schedulerGo, selectionsGo]
  | succ k ih =>
    intro m fs df
    simp only [schedulerGo, selectionsGo]
    by_cases hq : countGet m t < maxq
    · by_cases he : (monitorEligible maxh df).isEmpty
      · simp [hq, he]
      · simp [hq, he, List.map_append, purchasePass_calls, ih]
    · simp [hq]

/-! ## Claim fixtures -/

/-- The scheduler example of spec §8: one result page with
`hours_flown = [50, 10, 200, 10]` at row indices 0-3. -/
def exampleRows : List IndexedRow :=
  [{ page := 0, idx := 0, hours := 50, payload := "a" },
   { page := 0, idx := 1, hours := 10, payload := "b" },
   { page := 0, idx := 2, hours := 200, payload := "c" },
   { page := 0, idx := 3, hours := 10, payload := "d" }]

/-- Seventeen eligible rows all tied on `hours_flown = 7`, listed in their
original `(page_number, row_index)` order. -/
def tieRows17 : List IndexedRow :=
  (List.range 17).map (fun i => { page := 0, idx := i, hours := 7, payload := "" })

/-- Three coercible result pages of sizes `[3, 3, 1]` (the pagination
example of spec §8). -/
def pages331 : List (List RawRow) :=
  [[{ hours := some 1, payload := "a" }, { hours := some 2, payload := "b" },
    { hours := some 3, payload := "c" }],
   [{ hours := some 4, payload := "d" }, { hours := some 5, payload := "e" },
    { hours := some 6, payload := "f" }],
   [{ hours := some 7, payload := "g" }]]

/-- Three rows of one page, all eligible below 100 hours. -/
def rows3 : List IndexedRow :=
  [{ page := 0, idx := 0, hours := 1, payload := "a" },
   { page := 0, idx := 1, hours := 2, payload := "b" },
   { page := 0, idx := 2, hours := 3, payload := "c" }]

/-! ## Claims -/

/-- C1: counter durability fails on this code.  After three successful
purchases of type `"A320"` (starting from an empty store and no files on
disk) the in-memory counter holds 3 and the persisted map holds 3 — but the
map was dumped to the file `filename.pickle` (line 353) while startup
reloads `count.pickle` (line 305), so the `acquired_count` reloaded after a
crash and restart is 0, not 3: the round-trip property the claim states is
broken by the mismatched file names. -/
theorem counter_reload_after_restart_mismatch :
    countGet (schedulerRun "A320" 3 100 [] [] rows3).2.1 "A320" = 3 ∧
    (schedulerRun "A320" 3 100 [] [] rows3).2.2 = [("filename.pickle", [("A320", 3)])] ∧
    countGet (loadCounts (schedulerRun "A320" 3 100 [] [] rows3).2.2) "A320" = 0 := by
  decide

/-- C2 (counterexample): with `max_quantity = 1`, a zero starting count and
two eligible rows, the scheduler attempts **two** purchases and leaves the
counter at 2: the quota is not consulted between the purchases of one pass,
so a purchase is attempted after `acquired_count` has already reached
`max_quantity`, contradicting the claim. -/
theorem quota_overshoot_within_pass :
    (schedulerRun "A" 1 100 [] []
        [{ page := 0, idx := 0, hours := 0, payload := "a" },
         { page := 0, idx := 1, hours := 0, payload := "b" }]).1 =
      [{ pagenum := 1, rownum := 1 }, { pagenum := 1, rownum := 2 }] ∧
    countGet (schedulerRun "A" 1 100 [] []
        [{ page := 0, idx := 0, hours := 0, payload := "a" },
         { page := 0, idx := 1, hours := 0, payload := "b" }]).2.1 "A" = 2 ∧
    ¬ (2 ≤ 1) := by
  decide

/-- C2 (amended): the quota is checked only at the entry of each pass of
the scheduler `while` loop, not between the purchases of a pass; in
particular the scheduler makes no purchase call at all exactly when either
the quota is already met at entry (zero attempts regardless of eligible
supply) or no eligible rows remain. -/
theorem scheduler_calls_empty_iff (t : String) (maxq : Nat) (maxh : Int)
    (m : CounterMap) (fs : FileStore) (df : List IndexedRow) :
    (schedulerRun t maxq maxh m fs df).1 = [] ↔
      maxq ≤ countGet m t ∨ monitorEligible maxh df = [] := by
  by_cases hq : countGet m t < maxq
  · by_cases he : (monitorEligible maxh df).isEmpty = true
    · rw [schedulerRun_unfold]
      simp [hq, he, List.isEmpty_iff.mp he]
    · have he' : (monitorEligible maxh df).isEmpty = false := by
        simpa using he
      have hne : monitorEligible maxh df ≠ [] := by
        intro hh
        rw [hh] at he'
        simp at he'
      have hpos : 0 < (monitorEligible maxh df).length := List.length_pos.mpr hne
      rw [schedulerRun_calls_cons t maxq maxh m fs df hq he']
      constructor
      · intro hcalls
        exfalso
        have h0 := congrArg List.length hcalls
        simp only [List.length_append, List.length_nil, purchasePass_calls_length,
          sortValuesHours_length] at h0
        omega
      · intro hrhs
        exfalso
        rcases hrhs with h1 | h2
        · omega
        · exact absurd h2 hne
  · rw [schedulerRun_unfold]
    simp only [hq, if_false]
    constructor
    · intro _
      exact Or.inl (Nat.le_of_not_lt hq)
    · intro _
      trivial

set_option maxRecDepth 8000 in
/-- C3 (counterexample): seventeen rows all tied on `hours_flown = 7`, all
eligible, listed in original `(page_number, row_index)` order.  A stable
sort must return them unchanged, but `df.sort_values("Hours flown")`
(numpy's default introsort) leaves the insertion-sort regime at 17 elements
and reorders the ties, so the claimed tie-breaking by original order does
not hold. -/
theorem sort_ties_not_stable :
    tieRows17.map IndexedRow.idx = List.range 17 ∧
    tieRows17.map IndexedRow.hours = List.replicate 17 7 ∧
    monitorEligible 100 tieRows17 = tieRows17 ∧
    (sortValuesHours (monitorEligible 100 tieRows17)).map IndexedRow.idx ≠ List.range 17 := by
  decide

/-- C3 (amended): the scheduler keeps exactly the rows with
`hours_flown < max_hours` (in their original order) and sorts them
ascending by `hours_flown` with numpy's default introsort, which breaks
ties by original order only in its insertion-sort regime (at most 16
indices), not in general; for the spec §8 example `[50, 10, 200, 10]` with
`max_hours = 100` the sorted order is row 1, row 3, row 0 and the purchase
calls follow that order. -/
theorem eligibility_filter_and_example_order :
    (∀ (maxh : Int) (df : List IndexedRow) (r : IndexedRow),
        r ∈ monitorEligible maxh df ↔ r ∈ df ∧ r.hours < maxh) ∧
    (sortValuesHours (monitorEligible 100 exampleRows)).map IndexedRow.idx = [1, 3, 0] ∧
    (schedulerRun "A" 3 100 [] [] exampleRows).1 =
      [{ pagenum := 1, rownum := 2 }, { pagenum := 1, rownum := 4 },
       { pagenum := 1, rownum := 1 }] := by
  refine ⟨?_, by decide, by decide⟩
  intro maxh df r
  simp [monitorEligible, List.mem_filter]

/-- C4 (counterexample): a page whose `Hours flown` column fails integer
coercion does not merely lose that page: the `ValueError` escapes to the
`while True` handler of `main` (lines 361-363), so the session does **not**
survive — the supervisor discards it and constructs a new one. -/
theorem malformed_table_discards_session :
    sessionSurvives (monitorRuleStep [] [] { resourceType := "A320", maxQuantity := 3, maxHours := 100 }
      (some [[{ hours := some 1, payload := "a" }, { hours := none, payload := "x" }]])) = false := by
  decide

/-- C4 (amended): when the extracted tables fail integer coercion, the
monitor loop neither skips the page nor keeps the session: the error
aborts the pass and reaches the top-level handler, which discards the
session and constructs a fresh one, leaving the counter map and the disk
contents untouched. -/
theorem malformed_table_restarts_session (m : CounterMap) (fs : FileStore)
    (rule : AcquisitionRule) (tables : List (List RawRow)) (e : MalformedTableError)
    (h : build_table_index tables = .error e) :
    monitorRuleStep m fs rule (some tables) = .sessionRestart m fs ∧
    sessionSurvives (monitorRuleStep m fs rule (some tables)) = false := by
  constructor <;> simp [monitorRuleStep, h, sessionSurvives]

/-- C4 (witness): the amended theorem applied to a concrete malformed
second page, with a non-empty counter map that survives untouched. -/
theorem malformed_table_restarts_session_witness :
    monitorRuleStep [("A320", 1)] [] { resourceType := "A320", maxQuantity := 2, maxHours := 150 }
        (some [[{ hours := some 5, payload := "ok" }], [{ hours := none, payload := "bad" }]]) =
      .sessionRestart [("A320", 1)] [] :=
  (malformed_table_restarts_session _ _ _ _ .coercionFailed (by decide)).1

/-- C5 (counterexample): `launch_agent` tests only
`type(tables) == pd.DataFrame` before purchasing, so on a pass whose
filtered first page is an **empty** data frame it still attempts
`purchase_aircraft(-1, 1)` and, when that call returns, counts the
purchase — the claim's "non-empty" guard does not exist in the code. -/
theorem saturation_purchase_on_empty_table :
    passCalls (InnerEvent.leases (LeasePageResult.table []) true) =
      [{ pagenum := -1, rownum := 1 }] ∧
    passCount (InnerEvent.leases (LeasePageResult.table []) true) 0 = 1 := by
  decide

/-- C5 (amended): on each pass the worker attempts a purchase exactly when
the filtered fetch produced a data frame (empty or not) — never on an
absent airframe or a pass error — and any attempted call is
`purchase_aircraft(-1, 1)` (always row 1); each pass changes the counter by
at most one, a successful purchase by exactly one; and the loop never takes
the counter past `max_quantity` and stops acting once the quota is
reached. -/
theorem saturation_pass_and_quota :
    (∀ e : InnerEvent, passCalls e ≠ [] ↔
        ∃ rows ok, e = InnerEvent.leases (LeasePageResult.table rows) ok) ∧
    (∀ e : InnerEvent, passCalls e = [] ∨ passCalls e = [{ pagenum := -1, rownum := 1 }]) ∧
    (∀ (e : InnerEvent) (p : Nat), p ≤ passCount e p ∧ passCount e p ≤ p + 1) ∧
    (∀ (rows : List RawRow) (p : Nat),
        passCount (InnerEvent.leases (LeasePageResult.table rows) true) p = p + 1) ∧
    (∀ (maxAir p : Nat) (evs : List InnerEvent), p ≤ maxAir → runInner maxAir p evs ≤ maxAir) ∧
    (∀ (maxAir p : Nat) (evs : List InnerEvent), maxAir ≤ p → runInner maxAir p evs = p) := by
  refine ⟨?_, ?_, ?_, ?_, ?_, ?_⟩
  · intro e
    cases e with
    | navError => simp [passCalls]
    | leases r ok =>
      cases r with
      | absent => simp [passCalls]
      | table rows =>
        simp only [passCalls]
        constructor
        · intro _
          exact ⟨rows, ok, rfl⟩
        · intro _
          simp
  · intro e
    cases e with
    | navError => left; rfl
    | leases r ok =>
      cases r with
      | absent => left; rfl
      | table rows => right; rfl
  · intro e p
    exact ⟨passCount_ge e p, passCount_le e p⟩
  · intro rows p
    rfl
  · intro maxAir p evs h
    exact runInner_le_max maxAir evs p h
  · intro maxAir p evs h
    exact runInner_stopped maxAir p evs h

/-- C5 (witness): the amended theorem at concrete inputs: a quota of 2 is
not exceeded by three successful passes, and an absent-airframe pass makes
no call. -/
theorem saturation_pass_and_quota_witness :
    runInner 2 0 [InnerEvent.leases (LeasePageResult.table []) true,
      InnerEvent.leases (LeasePageResult.table []) true,
      InnerEvent.leases (LeasePageResult.table []) true] ≤ 2 :=
  saturation_pass_and_quota.2.2.2.2.1 2 0 _ (by decide)

/-- C6: the multi-page collector extracts every result page exactly once
(the click-through over the re-derived pagination links returns the pages
unchanged and in order), `build_table_index` concatenates them preserving
per-page order while tagging every row with its 0-based page number (it
coincides with the page-by-page spec-side tagging on every input), and on
pages of sizes `[3, 3, 1]` the result is exactly 7 rows with `page_number`
values `[0, 0, 0, 1, 1, 1, 2]`. -/
theorem multi_page_collection :
    (∀ pages : List (List RawRow), collectTables pages = pages) ∧
    (∀ pages : List (List RawRow),
        build_table_index (collectTables pages) = specTaggedTable pages) ∧
    (build_table_index (collectTables pages331)).map List.length = .ok 7 ∧
    (build_table_index (collectTables pages331)).map (fun l => l.map IndexedRow.page) =
      .ok [0, 0, 0, 1, 1, 1, 2] := by
  refine ⟨collectTables_eq, ?_, by decide, by decide⟩
  intro pages
  rw [collectTables_eq]
  exact build_table_index_eq_spec pages

/-- C7 (counterexample): for a selected row with `page_number = 0` and
`row_index = 0` the monitor scheduler calls
`purchase_aircraft(1, 1)` — the page argument is `page_number + 1`
(line 348: `j[0] + 1`), not the 0-based `page_number` the claim states. -/
theorem purchase_call_page_not_zero_based :
    (schedulerRun "A" 1 100 [] []
        [{ page := 0, idx := 0, hours := 5, payload := "x" }]).1 =
      [{ pagenum := 1, rownum := 1 }] ∧
    ({ pagenum := 1, rownum := 1 } : PurchaseCall) ≠ { pagenum := 0, rownum := 1 } := by
  decide

/-- C7 (amended): for every row the monitor scheduler selects, it invokes
`purchase_aircraft` with `page_number + 1` as the page argument (1-based at
the call: `_goto_page` subtracts one when indexing the links) and
`row_index + 1` as the row argument. -/
theorem purchase_call_args_offset (t : String) (maxq : Nat) (maxh : Int)
    (m : CounterMap) (fs : FileStore) (df : List IndexedRow) :
    (schedulerRun t maxq maxh m fs df).1 =
      ((selectionsRun t maxq maxh m fs df).1).map
        (fun r => { pagenum := (r.page : Int) + 1, rownum := r.idx + 1 }) :=
  schedulerGo_eq_selections t maxq maxh (maxq + 1) m fs df

/-- C8: filtering for a resource type that is absent from the currently
offered option labels returns the falsy no-supply result (`None`) and
performs no UI mutation at all — no option is selected and the filter
button is not clicked — in both `get_leases` and `get_lease_page`. -/
theorem unknown_airframe_no_ui_mutation (opts : List (String × String)) (airframe : String)
    (pages : List (List RawRow)) (h : airframe ∉ opts.map Prod.fst) :
    get_leases opts airframe pages = (none, []) ∧
    get_lease_page opts airframe pages = (none, []) := by
  constructor <;> simp [get_leases, get_lease_page, h]

/-- C8 (witness): the theorem at a concrete option list not containing the
requested type. -/
theorem unknown_airframe_no_ui_mutation_witness :
    get_leases [("A320", "12"), ("B747", "3")] "B737" pages331 = (none, []) ∧
    get_lease_page [("A320", "12"), ("B747", "3")] "B737" pages331 = (none, []) :=
  unknown_airframe_no_ui_mutation _ _ _ (by decide)

/-- C9: the saturation worker's purchase count is initialised once
(`launch_agent` starts `runOuter` at 0) and survives session restarts: a
failed login — the event that discards the session and constructs and
re-authenticates a new one — leaves the run's result exactly as if the
restart had not happened, and the count never decreases through any inner
or outer processing. -/
theorem saturation_count_survives_restart :
    (∀ (maxAir : Nat) (events : List OuterEvent),
        launch_agent maxAir events = runOuter maxAir 0 events) ∧
    (∀ (maxAir p : Nat) (es : List OuterEvent),
        runOuter maxAir p (OuterEvent.loginFail :: es) = runOuter maxAir p es) ∧
    (∀ (maxAir p : Nat) (es : List OuterEvent), p ≤ runOuter maxAir p es) ∧
    (∀ (maxAir p : Nat) (evs : List InnerEvent), p ≤ runInner maxAir p evs) := by
  refine ⟨fun _ _ => rfl, ?_, fun maxAir p es => runOuter_mono maxAir es p,
    fun maxAir p evs => runInner_mono maxAir evs p⟩
  intro maxAir p es
  by_cases hp : p < maxAir
  · simp [runOuter, hp]
  · rw [runOuter_stopped maxAir p es (by omega)]
    simp [runOuter, hp]

/-- C10: the counter store treats absence as zero: when `count.pickle` is
not on disk the store starts as an empty `defaultdict(int)`, and reading
the count of any resource type with no recorded entry yields 0 rather than
an error, so the scheduler's quota comparison is well defined for
never-purchased types. -/
theorem missing_counter_file_defaults_zero :
    (∀ fs : FileStore, fs.lookup "count.pickle" = none → loadCounts fs = []) ∧
    (∀ k : String, countGet (loadCounts []) k = 0) ∧
    (∀ (m : CounterMap) (k : String), m.lookup k = none → countGet m k = 0) := by
  refine ⟨?_, ?_, ?_⟩
  · intro fs h
    simp [loadCounts, h]
  · intro k
    rfl
  · intro m k h
    simp [countGet, h]

/-- C10 (witness): the theorem at a disk holding only `filename.pickle`
and at a map without the queried key. -/
theorem missing_counter_file_defaults_zero_witness :
    loadCounts [("filename.pickle", [("A320", 1)])] = [] ∧
    countGet [("A320", 2)] "B737" = 0 :=
  ⟨missing_counter_file_defaults_zero.1 _ (by decide),
   missing_counter_file_defaults_zero.2.2 _ _ (by decide)⟩
